import Mathlib

/-!
Shallow embedding of the form-builder state engine
(`src/hooks/useFormBuilder.ts`) and proofs about its specification.

JavaScript runtime values relevant to the engine are modelled by `JValue`
(strings, lists, booleans, `null`, `undefined`).  Maps keyed by field
identifier (`errors`, `dirtyFields`, ...) are modelled as association
lists with JavaScript-object assignment/deletion semantics.  The hook's
mutation operations are modelled as state-transition functions on
`FState`, and reachability as folding a list of operations over the
initial state.
-/

namespace FormBuilder

/-- Model of the JavaScript values stored in the form value map:
strings, arrays, booleans, `null` and `undefined`. -/
inductive JValue where
  | str : String → JValue
  | list : List JValue → JValue
  | bool : Bool → JValue
  | null : JValue
  | undefined : JValue
deriving Repr

/-- JavaScript truthiness for the modelled values: empty string, `false`,
`null` and `undefined` are falsy; arrays are always truthy. -/
def jsTruthy : JValue → Bool
  | .str s => !s.isEmpty
  | .list _ => true
  | .bool b => b
  | .null => false
  | .undefined => false

mutual

/-- JavaScript `String(v)` coercion for the modelled values (arrays join
their elements with commas). -/
def jsToString : JValue → String
  | .str s => s
  | .bool b => if b then "true" else "false"
  | .null => "null"
  | .undefined => "undefined"
  | .list l => jsJoinList l

/-- JS `Array.prototype.join(',')` over stringified elements; `null` and
`undefined` elements stringify to the empty string inside a join. -/
def jsJoinList : List JValue → String
  | [] => ""
  | [v] => jsJoinElem v
  | v :: vs => jsJoinElem v ++ "," ++ jsJoinList vs

/-- Stringification of one array element inside a join. -/
def jsJoinElem : JValue → String
  | .str s => s
  | .bool b => if b then "true" else "false"
  | .null => ""
  | .undefined => ""
  | .list l => jsJoinList l

end

/-- JavaScript strict equality on the modelled values.  Primitives
compare by value; distinct array objects are never `===` in JS, which is
modelled by making the `list` case false. -/
def jsStrictEq : JValue → JValue → Bool
  | .str a, .str b => a == b
  | .bool a, .bool b => a == b
  | .null, .null => true
  | .undefined, .undefined => true
  | _, _ => false

/-- A value counts as empty in the engine when it is `undefined`, `null`
or the empty string (the `value === undefined || value === null ||
value === ''` tests in the source). -/
def jsIsEmptyValue : JValue → Bool
  | .undefined => true
  | .null => true
  | .str "" => true
  | _ => false

/-- The blank-entry filter used on list values: an item is kept when it
is not the empty string, not `null` and not `undefined`. -/
def jsItemNonBlank : JValue → Bool
  | .str "" => false
  | .null => false
  | .undefined => false
  | _ => true

/-- The form value store: a total map from field identifier to value,
with `undefined` for absent keys. -/
def Values : Type := String → JValue

/-- Update a value map at one key. -/
def setVal (vals : Values) (k : String) (v : JValue) : Values :=
  fun k' => if k' = k then v else vals k'

/-! ## Masking transform (`applyMask`, useFormBuilder.ts lines 37-56) -/

/-- Strip every non-digit character, as in `value.replace(/\D/g, '')`. -/
def extractRaw (s : String) : String :=
  ⟨s.data.filter Char.isDigit⟩

/-- The scanning loop of `applyMask`: walk the mask while raw characters
remain; a placeholder consumes one raw character, a literal is copied.
The loop stops as soon as either the mask or the raw characters run out. -/
def maskLoop : List Char → List Char → List Char
  | [], _ => []
  | _, [] => []
  | m :: ms, d :: ds =>
    if m = '#' then d :: maskLoop ms ds else m :: maskLoop ms (d :: ds)

/-- Model of `applyMask` for string inputs: falsy value or missing/empty
mask yields the empty string, otherwise the digit-filtered value is
scanned through the mask. -/
def applyMask (value : String) (mask : String) : String :=
  if value.isEmpty || mask.isEmpty then ""
  else ⟨maskLoop mask.data (value.data.filter Char.isDigit)⟩

/-- Number of placeholder characters in a mask. -/
def placeholderCount (mask : String) : Nat :=
  (mask.data.filter (· = '#')).length

/-! ## Field configuration model (types/form.ts and the properties the
hook reads off field objects) -/

/-- Outcome of a caller-supplied custom validator: `true`, a string, or
any other value (treated as a generic failure). -/
inductive CustomRes where
  | isTrue : CustomRes
  | isStr : String → CustomRes
  | other : CustomRes

/-- Field-level validation rules as read by the hook: `pattern` (modelled
as the predicate the regular expression denotes), `message`, `custom`,
and the `deps` list read by the dependency-extraction effect. -/
structure VRule where
  pattern : Option (String → Bool) := Option.none
  message : Option String := Option.none
  custom : Option (String → Values → CustomRes) := Option.none
  deps : List String := []

/-- Conditional-display declaration: dependency list plus predicate. -/
structure Cond where
  dependsOn : List String := []
  shouldDisplay : Values → Bool

/-- Input/output value transformation declaration. -/
structure FTrans where
  input : Option (JValue → JValue) := Option.none
  output : Option (JValue → JValue) := Option.none

/-- The four field kinds. -/
inductive FieldType where
  | text | select | chip | array
deriving DecidableEq, Repr

/-- A field definition with the properties the state engine reads. -/
structure Field where
  id : String
  type : FieldType
  required : Bool := false
  mask : Option String := Option.none
  minItems : Option Nat := Option.none
  maxItems : Option Nat := Option.none
  validation : Option VRule := Option.none
  condition : Option Cond := Option.none
  transform : Option FTrans := Option.none
  options : List (String × String) := []
  placeholder : Option String := Option.none

/-- A form configuration: rows of columns, where each column is a field
definition. -/
structure Config where
  rows : List (List Field)

/-- All fields of a configuration in traversal order
(`config.rows.flatMap(row => row.columns)`). -/
def fieldsOf (cfg : Config) : List Field :=
  cfg.rows.flatMap id

/-- JS truthiness of the `mask` property (`undefined` or the empty string
are falsy). -/
def maskTruthy : Option String → Bool
  | Option.none => false
  | Option.some m => !m.isEmpty

/-- JS truthiness of the numeric `minItems` / `maxItems` properties
(`undefined` and `0` are falsy). -/
def numTruthy : Option Nat → Bool
  | Option.none => false
  | Option.some k => k ≠ 0

/-- The field-lookup loop at the top of `validateSingleField` (lines
142-149): scans every row and column and keeps the LAST field whose id
matches. -/
def findFieldLast (cfg : Config) (fieldId : String) : Option Field :=
  (fieldsOf cfg).foldl
    (fun acc f => if f.id = fieldId then Option.some f else acc) Option.none

/-- The field lookup used by `validateField` and `setValue`
(`config.rows.flatMap(...).find(...)`): the FIRST field whose id
matches. -/
def findFieldFirst (cfg : Config) (fieldId : String) : Option Field :=
  (fieldsOf cfg).find? (fun f => f.id = fieldId)

/-! ## validateSingleField (useFormBuilder.ts lines 133-269) -/

/-- Validation result: pass/fail plus the error message, when any. -/
structure VResult where
  isValid : Bool
  error : Option String := Option.none
deriving DecidableEq, Repr

/-- A passing validation result. -/
def VResult.ok : VResult := { isValid := true }

/-- A failing validation result with its message. -/
def VResult.fail (msg : String) : VResult :=
  { isValid := false, error := Option.some msg }

/-- The checks of `validateSingleField` that follow the required check:
the array/chip bounds check (which ends validation for list-typed
fields), the masked-text digit-count check, the pattern check, the
built-in `confirmPassword` rule and the custom validator, in source
order with the same early returns. -/
def validateAfterRequired (fieldConfig : Field) (fieldId : String) (value : JValue)
    (mergedValues : Values) : VResult :=
  -- Array field validation
  if fieldConfig.type = .array ∨ fieldConfig.type = .chip then
    let array := match value with
      | .list l => l
      | _ => []
    let nonEmptyArray := array.filter jsItemNonBlank
    if numTruthy fieldConfig.minItems ∧
        nonEmptyArray.length < fieldConfig.minItems.getD 0 then
      VResult.fail ("Minimum " ++ toString (fieldConfig.minItems.getD 0) ++ " items required")
    else if numTruthy fieldConfig.maxItems ∧
        fieldConfig.maxItems.getD 0 < nonEmptyArray.length then
      VResult.fail ("Maximum " ++ toString (fieldConfig.maxItems.getD 0) ++ " items allowed")
    else VResult.ok
  else
    -- Masked field validation
    let maskedCheck : Option VResult :=
      if fieldConfig.type = .text ∧ maskTruthy fieldConfig.mask then
        let digitCount := placeholderCount (fieldConfig.mask.getD "")
        let rawValue := extractRaw (jsToString (if jsTruthy value then value else .str ""))
        if rawValue.length > 0 ∧ rawValue.length ≠ digitCount then
          Option.some (VResult.fail
            ((fieldConfig.validation.bind (·.message)).getD
              ("Must be " ++ toString digitCount ++ " digits")))
        else Option.none
      else Option.none
    match maskedCheck with
    | Option.some r => r
    | Option.none =>
      -- Pattern validation (skipped when the field has a mask)
      let patternCheck : Option VResult :=
        match fieldConfig.validation.bind (·.pattern) with
        | Option.some pat =>
          if !maskTruthy fieldConfig.mask ∧ jsTruthy value ∧ !pat (jsToString value) then
            Option.some (VResult.fail
              ((fieldConfig.validation.bind (·.message)).getD "Invalid format"))
          else Option.none
        | Option.none => Option.none
      match patternCheck with
      | Option.some r => r
      | Option.none =>
        -- Password confirmation validation
        if fieldId = "confirmPassword" ∧
            !jsStrictEq (mergedValues "password") value then
          VResult.fail "Passwords do not match"
        else
          -- Custom validation
          match fieldConfig.validation.bind (·.custom) with
          | Option.some custom =>
            match custom (jsToString (if jsTruthy value then value else .str ""))
                mergedValues with
            | .isTrue => VResult.ok
            | .isStr s => VResult.fail s
            | .other => VResult.fail "Invalid value"
          | Option.none => VResult.ok

/-- The body of `validateSingleField` once the field configuration has
been found: the required check (with the select special case, which
always returns early for required selects) followed by the remaining
rule chain. -/
def validateFieldRules (fieldConfig : Field) (fieldId : String) (value : JValue)
    (formValues : Values) (mergedValues : Values) : VResult :=
  -- Required field validation
  if fieldConfig.required then
    if fieldConfig.type = .select then
      -- select special case: empty only when undefined/null/'' and no
      -- default value is present in the form values
      let isEmptyValue := jsIsEmptyValue value
      let hasDefaultValue := !jsIsEmptyValue (formValues fieldConfig.id)
      if isEmptyValue && !hasDefaultValue then
        VResult.fail
          ((fieldConfig.validation.bind (·.message)).getD "Please select an option")
      else
        VResult.ok
    else if jsIsEmptyValue value then
      VResult.fail
        ((fieldConfig.validation.bind (·.message)).getD "This field is required")
    else validateAfterRequired fieldConfig fieldId value mergedValues
  else validateAfterRequired fieldConfig fieldId value mergedValues

/-- Model of `validateSingleField`: field lookup (last match wins), the
merge of updated values over the form values, and the rule chain.  A
missing field configuration is valid. -/
def validateSingleField (fieldId : String) (value : JValue) (cfg : Config)
    (formValues : Values) (updatedValues : List (String × JValue) := []) : VResult :=
  match findFieldLast cfg fieldId with
  | Option.none => VResult.ok
  | Option.some fieldConfig =>
    let mergedValues := updatedValues.foldl (fun vs p => setVal vs p.1 p.2) formValues
    validateFieldRules fieldConfig fieldId value formValues mergedValues

/-! ## Per-field status maps

`errors`, `dirtyFields`, `touchedFields`, `validatingFields` and
`loadingFields` are JavaScript objects keyed by field id.  They are
modelled as association lists without duplicate keys; assignment
overwrites in place or appends, deletion filters the key out, and the
`Object.keys(m).length === 0` test is list emptiness. -/

/-- JS object assignment `m[k] = v`: overwrite in place, else append. -/
def objInsert (m : List (String × String)) (k : String) (v : String) :
    List (String × String) :=
  if m.any (fun p => p.1 = k) then m.map (fun p => if p.1 = k then (k, v) else p)
  else m ++ [(k, v)]

/-- JS `delete m[k]`. -/
def objErase (m : List (String × String)) (k : String) : List (String × String) :=
  m.filter (fun p => p.1 ≠ k)

/-- Assignment into a boolean-valued object (`validatingFields`,
`loadingFields`), where explicit `false` entries stay present. -/
def objInsertB (m : List (String × Bool)) (k : String) (b : Bool) :
    List (String × Bool) :=
  if m.any (fun p => p.1 = k) then m.map (fun p => if p.1 = k then (k, b) else p)
  else m ++ [(k, b)]

/-- Setting `m[k] = true` in `dirtyFields`/`touchedFields` (only ever set
to `true`), modelled as a key set. -/
def setFlag (l : List String) (k : String) : List String :=
  if k ∈ l then l else l ++ [k]

/-- Deleting a key from `dirtyFields`/`touchedFields`. -/
def clearFlag (l : List String) (k : String) : List String :=
  l.filter (fun x => x ≠ k)

/-- JS truthiness of the error message carried by a validation result
(`!result.isValid && result.error`): present and non-empty. -/
def errTruthy : Option String → Bool
  | Option.none => false
  | Option.some e => !e.isEmpty

/-! ## Hook options and the enhanced form state -/

/-- The validation modes (`'none'` is written `modeNone`). -/
inductive Mode where
  | onSubmit | onChange | onBlur | onTouched | all | modeNone
deriving DecidableEq, Repr

/-- Construction-time options of `useFormBuilder` that the state engine
reads.  `formValidation` returns `null` (modelled `none`) or a record of
field-keyed messages. -/
structure UseFormBuilderOptions where
  mode : Option Mode := Option.none
  enableFieldLevelDirtyChecking : Bool := false
  enableFieldTransformation : Bool := false
  enableAutomaticDependencyRevalidation : Bool := false
  enablePerformanceOptimizations : Bool := false
  formValidation : Option (Values → Option (List (String × String))) := Option.none

/-- The per-call options object read by `setValue` at runtime.  The code
reads `mode`, `enableAutomaticDependencyRevalidation`,
`enableFieldLevelDirtyChecking` and `enableFieldTransformation` off this
object as well (lines 1090, 1161, 1177, 1186), so they are modelled as
optional members here. -/
structure SetValueOptions where
  shouldDirty : Option Bool := Option.none
  shouldTouch : Option Bool := Option.none
  shouldValidate : Option Bool := Option.none
  mode : Option Mode := Option.none
  enableAutomaticDependencyRevalidation : Option Bool := Option.none
  enableFieldLevelDirtyChecking : Option Bool := Option.none
  enableFieldTransformation : Option Bool := Option.none
deriving DecidableEq

/-- Options of `resetForm`.  Absent flags are falsy. -/
structure FormResetOptions where
  keepErrors : Bool := false
  keepDirty : Bool := false
  keepValues : Bool := false
  keepIsSubmitted : Bool := false
  keepTouched : Bool := false
  keepIsValid : Bool := false
  keepSubmitCount : Bool := false
deriving DecidableEq

/-- Options of `resetField`. -/
structure FieldResetOptions where
  keepError : Bool := false
  keepDirty : Bool := false
  keepValue : Bool := false
  keepTouched : Bool := false
  enableFieldLevelDirtyChecking : Bool := false
deriving DecidableEq

/-- The `EnhancedFormState` record together with the form value store. -/
structure FState where
  values : Values
  isDirty : Bool := false
  dirtyFields : List String := []
  isSubmitted : Bool := false
  isSubmitSuccessful : Bool := false
  isSubmitting : Bool := false
  isValidating : Bool := false
  submitCount : Nat := 0
  touchedFields : List String := []
  errors : List (String × String) := []
  isValid : Bool := true
  isLoading : Bool := false
  validatingFields : List (String × Bool) := []
  loadingFields : List (String × Bool) := []

/-- The initial state of a form instance (useFormBuilder.ts lines
507-522), over arbitrary initial values. -/
def initState (v0 : Values) : FState := { values := v0 }

/-! ## Derived registries (the dependency-extraction effect, lines
546-593).  All three maps are populated only when
`enableAutomaticDependencyRevalidation` is set; otherwise the effect
body never runs and the React state stays empty. -/

/-- The `fieldConditions` map: each field with a declared condition (its
`dependsOn` array is always truthy) registers it, later fields
overwriting earlier ones with the same id. -/
def fieldConditionsMap (cfg : Config) (opts : UseFormBuilderOptions) :
    String → Option Cond :=
  if opts.enableAutomaticDependencyRevalidation then
    fun fid => (fieldsOf cfg).foldl
      (fun acc f => if f.condition.isSome ∧ f.id = fid then f.condition else acc)
      Option.none
  else fun _ => Option.none

/-- The `fieldTransformations` map: registered for fields declaring a
transform, additionally gated on `enableFieldTransformation`. -/
def fieldTransformationsMap (cfg : Config) (opts : UseFormBuilderOptions) :
    String → Option FTrans :=
  if opts.enableAutomaticDependencyRevalidation then
    fun fid => (fieldsOf cfg).foldl
      (fun acc f =>
        if f.transform.isSome ∧ opts.enableFieldTransformation ∧ f.id = fid then
          f.transform
        else acc)
      Option.none
  else fun _ => Option.none

/-- One step of building the `fieldDependencies` inverse map: the ids
depending on `dep` via `validation.deps` (pushed unconditionally) and via
`condition.dependsOn` (pushed only when not already present). -/
def depsMapStep (acc : String → List String) (f : Field) : String → List String :=
  let fromValidation :=
    (match f.validation with
      | Option.some v => v.deps
      | Option.none => []).foldl
      (fun a dep => fun d => if d = dep then a d ++ [f.id] else a d) acc
  (match f.condition with
    | Option.some c => c.dependsOn
    | Option.none => []).foldl
    (fun a dep => fun d =>
      if d = dep then (if f.id ∈ a d then a d else a d ++ [f.id]) else a d)
    fromValidation

/-- The `fieldDependencies` map, read by `getFieldDependencies`. -/
def fieldDependenciesMap (cfg : Config) (opts : UseFormBuilderOptions) :
    String → List String :=
  if opts.enableAutomaticDependencyRevalidation then
    (fieldsOf cfg).foldl depsMapStep (fun _ => [])
  else fun _ => []

/-- `shouldDisplayField`: true when no condition is registered, otherwise
the condition predicate over the current values (lines 1042-1050). -/
def shouldDisplayField (cm : String → Option Cond) (fieldId : String)
    (vals : Values) : Bool :=
  match cm fieldId with
  | Option.none => true
  | Option.some c => c.shouldDisplay vals

/-- Transformation direction. -/
inductive TDir where
  | input | output
deriving DecidableEq

/-- `transformField` (lines 1060-1076). -/
def transformField (tm : String → Option FTrans) (fieldId : String) (v : JValue)
    (dir : TDir) : JValue :=
  match tm fieldId with
  | Option.none => v
  | Option.some t =>
    match dir with
    | .input => match t.input with
      | Option.some g => g v
      | Option.none => v
    | .output => match t.output with
      | Option.some g => g v
      | Option.none => v

/-! ## validateField (lines 630-753) -/

/-- The three sequential early-return tests of `validateField` (hidden
conditional field, pre-validated field, select holding a value).  Each
of the three `if` statements in the source returns the same cleared
state, so they are modelled as one disjunction. -/
def validateFieldSkipEarly (cfg : Config) (opts : UseFormBuilderOptions)
    (readVals : Values) (name : String) (valueToValidate : JValue) : Bool :=
  ((((findFieldFirst cfg name).map (fun f => f.condition.isSome)).getD false) &&
    !(shouldDisplayField (fieldConditionsMap cfg opts) name readVals)) ||
  jsTruthy (readVals ("__prevalidated_" ++ name)) ||
  ((((findFieldFirst cfg name).map (fun f => f.type == FieldType.select)).getD false) &&
    !(jsIsEmptyValue valueToValidate))

/-- The candidate value of a `validateField` call: an explicitly
`undefined` (or omitted) value falls back to the current form value. -/
def valueToValidateOf (readVals : Values) (name : String) (v : JValue) : JValue :=
  match v with
  | .undefined => readVals name
  | _ => v

/-- State effect of `validateField(name, value)` plus its returned
boolean.  `readVals` is the `formValues` closure the call reads (the
render snapshot), while the status-record updates apply functionally to
the current state `s`.  The early-return branches clear the field error
and report success; otherwise `validateSingleField` decides whether the
field error is set or cleared.  All updates funnel into one final record
whose error map is selected by the branch taken (the rule functions are
pure, so hoisting them is observationally identical to the source's
early returns). -/
def validateFieldApply (cfg : Config) (opts : UseFormBuilderOptions)
    (readVals : Values) (name : String) (v : JValue) (s : FState) :
    FState × Bool :=
  let s1 := { s with isValidating := true,
                     validatingFields := objInsertB s.validatingFields name true }
  let valueToValidate := valueToValidateOf readVals name v
  let skip := validateFieldSkipEarly cfg opts readVals name valueToValidate
  let transformedValue :=
    if opts.enableFieldTransformation then
      transformField (fieldTransformationsMap cfg opts) name valueToValidate .input
    else valueToValidate
  let result := validateSingleField name transformedValue cfg readVals
  let newErrors :=
    if skip then objErase s1.errors name
    else if ¬ result.isValid ∧ errTruthy result.error then
      objInsert s1.errors name (result.error.getD "")
    else objErase s1.errors name
  ({ s1 with isValidating := false,
             validatingFields := objInsertB s1.validatingFields name false,
             errors := newErrors,
             isValid := newErrors.isEmpty },
   if skip then true else result.isValid)

/-! ## setValue (lines 1086-1194) -/

/-- The value written by `setValue`: the input transform applies only
when the PER-CALL options object carries `enableFieldTransformation`
(line 1090 reads it off the shadowing `options` parameter). -/
def transformedValueOf (cfg : Config) (opts : UseFormBuilderOptions) (name : String)
    (v : JValue) (callOpts : SetValueOptions) : JValue :=
  if callOpts.enableFieldTransformation = Option.some true then
    transformField (fieldTransformationsMap cfg opts) name v .input
  else v

/-- The `isSelectField && hasValue` test of `setValue` (lines
1104-1112). -/
def selectPreCond (cfg : Config) (opts : UseFormBuilderOptions) (name : String)
    (v : JValue) (callOpts : SetValueOptions) : Bool :=
  (((findFieldFirst cfg name).map (fun f => f.type == FieldType.select)).getD false)
    && !(jsIsEmptyValue (transformedValueOf cfg opts name v callOpts))

/-- The validation-trigger decision of `setValue` (lines 1160-1172).
Line 1161 reads `options?.mode` in BOTH branches of its fallback
conditional — `options` is the per-call options object, shadowing the
construction options — so the ambient mode never enters this
decision. -/
def setValueShouldValidate (callOpts : SetValueOptions) : Bool :=
  let validationMode :=
    if callOpts.mode ≠ Option.none then callOpts.mode else callOpts.mode
  (callOpts.shouldValidate == Option.some true ||
    validationMode == Option.some Mode.onChange ||
    validationMode == Option.some Mode.all) &&
  !(validationMode == Option.some Mode.modeNone)

/-- The non-validating part of `setValue`: the value write (with the
select pre-validation branch that also clears the field error), the
dirty marking and the touch marking.  These sequential functional
updates touch disjoint parts of the record and are merged into one
record update. -/
def setValuePlain (cfg : Config) (opts : UseFormBuilderOptions) (name : String)
    (v : JValue) (callOpts : SetValueOptions) (s : FState) : FState :=
  let transformedValue := transformedValueOf cfg opts name v callOpts
  let selectPre := selectPreCond cfg opts name v callOpts
  { s with
    values :=
      if selectPre then
        setVal (setVal s.values name transformedValue)
          ("__prevalidated_" ++ name) (.bool true)
      else setVal s.values name transformedValue,
    errors := if selectPre then objErase s.errors name else s.errors,
    isValid := if selectPre then (objErase s.errors name).isEmpty else s.isValid,
    isDirty := if callOpts.shouldDirty ≠ Option.some false then true else s.isDirty,
    dirtyFields :=
      if callOpts.shouldDirty ≠ Option.some false then setFlag s.dirtyFields name
      else s.dirtyFields,
    touchedFields :=
      if callOpts.shouldTouch = Option.some true then setFlag s.touchedFields name
      else s.touchedFields }

/-- State effect of `setValue(name, value, options)`: the plain update,
then — only when the per-call options trigger validation — a
`validateField` on the new value and, when the per-call options enable
it, a `validateField` for every registered dependent of `name`.  Every
`formValues` read uses the render snapshot `s.values`.  The `password`
special case schedules an asynchronous
`validateField('confirmPassword', ...)`, which appears as a separate
operation in traces. -/
def setValueApply (cfg : Config) (opts : UseFormBuilderOptions) (name : String)
    (v : JValue) (callOpts : SetValueOptions) (s : FState) : FState :=
  let s3 := setValuePlain cfg opts name v callOpts s
  if setValueShouldValidate callOpts then
    let s4 := (validateFieldApply cfg opts s.values name
      (transformedValueOf cfg opts name v callOpts) s3).1
    if callOpts.enableAutomaticDependencyRevalidation = Option.some true then
      (fieldDependenciesMap cfg opts name).foldl
        (fun st dep => (validateFieldApply cfg opts s.values dep (s.values dep) st).1)
        s4
    else s4
  else s3

/-! ## Array operations (lines 756-906) -/

/-- Whether an operations object exists for this id: some field of the
configuration with this id has type array or chip. -/
def isArrayFieldId (cfg : Config) (fid : String) : Bool :=
  (fieldsOf cfg).any (fun f => f.id = fid ∧ (f.type = .array ∨ f.type = .chip))

/-- `(formValues[id] as any[]) || []` followed by an array spread:
falsy values give the empty list, arrays give their elements, strings
spread into their characters; other truthy values are not iterable and
the operation throws before any state update (`none`). -/
def jsArrSpread (v : JValue) : Option (List JValue) :=
  if ¬ jsTruthy v then Option.some []
  else match v with
    | .list l => Option.some l
    | .str sv => Option.some (sv.data.map (fun c => .str (String.mk [c])))
    | _ => Option.none

/-- `(formValues[id] as any[]) || []` followed by `.filter`: only real
arrays (or falsy values) work; truthy non-arrays throw (`none`). -/
def jsArrOnly (v : JValue) : Option (List JValue) :=
  if ¬ jsTruthy v then Option.some []
  else match v with
    | .list l => Option.some l
    | _ => Option.none

/-- Start-index clamping of `Array.prototype.splice`. -/
def jsSpliceIdx (len : Nat) (i : Int) : Nat :=
  if i < 0 then ((len : Int) + i).toNat else min i.toNat len

/-- `remove(index)` body: `currentValues.filter((_, i) => i !== index)`. -/
def jsRemoveFilter (l : List JValue) (index : Int) : List JValue :=
  (l.enum.filter (fun p => (p.1 : Int) ≠ index)).map Prod.snd

/-- JS array element read `l[i]` (`undefined` out of range). -/
def jsGetElem (l : List JValue) (i : Int) : JValue :=
  if i < 0 then .undefined else ((l.get? i.toNat).getD .undefined)

/-- JS array element assignment `l[i] = x`: in-range writes in place, an
index past the end extends the array with holes (`undefined`), negative
indices create a non-index property and leave the elements unchanged. -/
def jsSetElem (l : List JValue) (i : Int) (x : JValue) : List JValue :=
  if i < 0 then l
  else if i.toNat < l.length then l.set i.toNat x
  else l ++ List.replicate (i.toNat - l.length) .undefined ++ [x]

/-- `swap(a, b)` body: destructuring assignment
`[n[a], n[b]] = [n[b], n[a]]` (right side read first). -/
def jsSwap (l : List JValue) (a b : Int) : List JValue :=
  let va := jsGetElem l b
  let vb := jsGetElem l a
  jsSetElem (jsSetElem l a va) b vb

/-- `move(src, dst)` body: `splice(src, 1)` removes one element (or
nothing when out of range, moving `undefined`), then `splice(dst, 0, m)`
reinserts it into the shortened list. -/
def jsMove (l : List JValue) (src dst : Int) : List JValue :=
  let idx := jsSpliceIdx l.length src
  let moved := (l.get? idx).getD .undefined
  let l' := l.eraseIdx idx
  l'.insertIdx (jsSpliceIdx l'.length dst) moved

/-- `insert(index, value)` body: `splice(index, 0, value)` on a copy. -/
def jsInsertAt (l : List JValue) (index : Int) (v : JValue) : List JValue :=
  l.insertIdx (jsSpliceIdx l.length index) v

/-- Common tail of every array operation: store the new list, mark the
field dirty, then re-validate it with the new list as candidate value
(reading the render snapshot `s.values`). -/
def arrayMutApply (cfg : Config) (opts : UseFormBuilderOptions) (fid : String)
    (newList : List JValue) (s : FState) : FState :=
  let s1 := { s with values := setVal s.values fid (.list newList) }
  let s2 := { s1 with isDirty := true, dirtyFields := setFlag s1.dirtyFields fid }
  (validateFieldApply cfg opts s.values fid (.list newList) s2).1

/-! ## handleSubmit (lines 1306-1512) -/

/-- `options.mode === undefined || options.mode === 'onSubmit' ||
options.mode === 'all'` (line 1326). -/
def shouldValidateOnSubmit (opts : UseFormBuilderOptions) : Bool :=
  opts.mode = Option.none ∨ opts.mode = Option.some .onSubmit ∨
    opts.mode = Option.some .all

/-- The value a field is validated with at submit time (input transform
applied when the construction toggle is set). -/
def submitFieldValue (cfg : Config) (opts : UseFormBuilderOptions) (vals : Values)
    (f : Field) : JValue :=
  if opts.enableFieldTransformation then
    transformField (fieldTransformationsMap cfg opts) f.id (vals f.id) .input
  else vals f.id

/-- One iteration of the submit-time validation loop (lines 1382-1415):
a hidden conditional field is skipped, a select field holding a value is
skipped, and otherwise a failure with a truthy message is collected and
flips the validity flag. -/
def submitStep (cfg : Config) (opts : UseFormBuilderOptions) (vals : Values)
    (acc : List (String × String) × Bool) (f : Field) :
    List (String × String) × Bool :=
  if f.condition.isSome &&
      !(shouldDisplayField (fieldConditionsMap cfg opts) f.id vals) then acc
  else
    let fieldValue := submitFieldValue cfg opts vals f
    if (f.type == FieldType.select) && !(jsIsEmptyValue fieldValue) then acc
    else
      let result := validateSingleField f.id fieldValue cfg vals
      if !result.isValid && errTruthy result.error then
        (objInsert acc.1 f.id (result.error.getD ""), false)
      else acc

/-- The submit-time validation loop: every field in traversal order. -/
def submitErrorsAndValid (cfg : Config) (opts : UseFormBuilderOptions)
    (vals : Values) : List (String × String) × Bool :=
  (fieldsOf cfg).foldl (submitStep cfg opts vals) ([], true)

/-- Synchronous state effect of a submit trigger: mark
submitting/submitted and bump the counter; when the mode validates on
submit, replace the error map with the freshly computed one and merge any
whole-form validation errors (a non-null record, even an empty one,
forces invalid). -/
def handleSubmitApply (cfg : Config) (opts : UseFormBuilderOptions) (s : FState) :
    FState :=
  let s1 := { s with isSubmitting := true, isSubmitted := true,
                     submitCount := s.submitCount + 1 }
  if ¬ shouldValidateOnSubmit opts then s1
  else
    let ev := submitErrorsAndValid cfg opts s.values
    let s2 := { s1 with errors := ev.1, isValid := ev.2,
                        isSubmitting := if ev.2 then s1.isSubmitting else false }
    match opts.formValidation with
    | Option.none => s2
    | Option.some fv =>
      match fv s.values with
      | Option.none => s2
      | Option.some formErrs =>
        let newErrors := formErrs.foldl (fun m p => objInsert m p.1 p.2) ev.1
        { s2 with errors := newErrors, isValid := false, isSubmitting := false }

/-- Asynchronous settlement of the submit callback (the `setTimeout`
bodies): success or failure flags. -/
def submitSettleApply (success : Bool) (s : FState) : FState :=
  if success then
    { s with isSubmitting := false, isSubmitted := true, isSubmitSuccessful := true }
  else
    { s with isSubmitting := false, isSubmitSuccessful := false }

/-! ## Reset controller (lines 934-1021) -/

/-- `resetField(name, options)`: restore the value unless kept, drop the
error/dirty/touched entries unless kept, recompute `isValid` — but never
touch `isDirty`. -/
def resetFieldApply (defaults : Values) (name : String) (o : FieldResetOptions)
    (s : FState) : FState :=
  let newValues := if o.keepValue then s.values else setVal s.values name (defaults name)
  let newErrors := if o.keepError then s.errors else objErase s.errors name
  { s with
    values := newValues,
    errors := newErrors,
    dirtyFields := if o.keepDirty then s.dirtyFields else clearFlag s.dirtyFields name,
    touchedFields := if o.keepTouched then s.touchedFields
      else clearFlag s.touchedFields name,
    isValid := newErrors.isEmpty }

/-- `resetForm(options)`: restore values (deep clone of the captured
defaults) unless kept, and reset each status flag according to its
retention option. -/
def resetFormApply (defaults : Values) (o : FormResetOptions) (s : FState) : FState :=
  { s with
    values := if o.keepValues then s.values else defaults,
    isDirty := if o.keepDirty then s.isDirty else false,
    dirtyFields := if o.keepDirty then s.dirtyFields else [],
    isSubmitted := if o.keepIsSubmitted then s.isSubmitted else false,
    isSubmitSuccessful := if o.keepIsSubmitted then s.isSubmitSuccessful else false,
    submitCount := if o.keepSubmitCount then s.submitCount else 0,
    touchedFields := if o.keepTouched then s.touchedFields else [],
    errors := if o.keepErrors then s.errors else [],
    isValid := if o.keepIsValid then s.isValid else true,
    isLoading := false,
    loadingFields := [] }

/-! ## The exposed mutation operations as a transition system -/

/-- One call to an exposed mutation operation, with its arguments. -/
inductive Op where
  | setValue (name : String) (v : JValue) (o : SetValueOptions)
  | validateField (name : String) (v : JValue)
  | arrayAppend (fid : String) (v : JValue)
  | arrayPrepend (fid : String) (v : JValue)
  | arrayRemove (fid : String) (index : Int)
  | arraySwap (fid : String) (a b : Int)
  | arrayMove (fid : String) (src dst : Int)
  | arrayInsert (fid : String) (index : Int) (v : JValue)
  | handleSubmit
  | submitSettle (success : Bool)
  | resetForm (o : FormResetOptions)
  | resetField (name : String) (o : FieldResetOptions)
  | setLoading (b : Bool)
  | setFieldLoading (fid : String) (b : Bool)

/-- State transition of one operation.  Array operations exist only for
array/chip fields; a truthy non-iterable current value throws in JS
before any state update, leaving the state unchanged. -/
def applyOp (cfg : Config) (opts : UseFormBuilderOptions) (defaults : Values) :
    Op → FState → FState
  | .setValue n v o, s => setValueApply cfg opts n v o s
  | .validateField n v, s => (validateFieldApply cfg opts s.values n v s).1
  | .arrayAppend fid v, s =>
    if isArrayFieldId cfg fid then
      match jsArrSpread (s.values fid) with
      | Option.some cur => arrayMutApply cfg opts fid (cur ++ [v]) s
      | Option.none => s
    else s
  | .arrayPrepend fid v, s =>
    if isArrayFieldId cfg fid then
      match jsArrSpread (s.values fid) with
      | Option.some cur => arrayMutApply cfg opts fid (v :: cur) s
      | Option.none => s
    else s
  | .arrayRemove fid index, s =>
    if isArrayFieldId cfg fid then
      match jsArrOnly (s.values fid) with
      | Option.some cur => arrayMutApply cfg opts fid (jsRemoveFilter cur index) s
      | Option.none => s
    else s
  | .arraySwap fid a b, s =>
    if isArrayFieldId cfg fid then
      match jsArrSpread (s.values fid) with
      | Option.some cur => arrayMutApply cfg opts fid (jsSwap cur a b) s
      | Option.none => s
    else s
  | .arrayMove fid src dst, s =>
    if isArrayFieldId cfg fid then
      match jsArrSpread (s.values fid) with
      | Option.some cur => arrayMutApply cfg opts fid (jsMove cur src dst) s
      | Option.none => s
    else s
  | .arrayInsert fid index v, s =>
    if isArrayFieldId cfg fid then
      match jsArrSpread (s.values fid) with
      | Option.some cur => arrayMutApply cfg opts fid (jsInsertAt cur index v) s
      | Option.none => s
    else s
  | .handleSubmit, s => handleSubmitApply cfg opts s
  | .submitSettle b, s => submitSettleApply b s
  | .resetForm o, s => resetFormApply defaults o s
  | .resetField n o, s => resetFieldApply defaults n o s
  | .setLoading b, s => { s with isLoading := b }
  | .setFieldLoading fid b, s =>
    { s with loadingFields := objInsertB s.loadingFields fid b }

/-- Run a sequence of operations from a state. -/
def runOps (cfg : Config) (opts : UseFormBuilderOptions) (defaults : Values)
    (ops : List Op) (s0 : FState) : FState :=
  ops.foldl (fun s o => applyOp cfg opts defaults o s) s0

/-! ## Concrete fixtures used by witnesses and counterexamples -/

/-- The value store with every key absent. -/
def undefVals : Values := fun _ => .undefined

/-- Executable model of the regular expression
`^\(\d{3}\) \d{3}-\d{4}$` declared for the phone field. -/
def phonePatternTest (s : String) : Bool :=
  match s.data with
  | '(' :: d1 :: d2 :: d3 :: ')' :: ' ' :: e1 :: e2 :: e3 :: '-' ::
      f1 :: f2 :: f3 :: f4 :: [] =>
    [d1, d2, d3, e1, e2, e3, f1, f2, f3, f4].all Char.isDigit
  | _ => false

/-- A masked text field like the claim describes: mask
`(###) ###-####` with the phone pattern. -/
def phoneField : Field :=
  { id := "phone", type := .text, required := true,
    mask := Option.some "(###) ###-####",
    validation := Option.some { pattern := Option.some phonePatternTest } }

/-- A one-field configuration holding the phone field. -/
def cfgPhone : Config := { rows := [[phoneField]] }

/-- A required chip field without `minItems`. -/
def chipField : Field := { id := "tags", type := .chip, required := true }

/-- A one-field configuration holding the chip field. -/
def cfgChip : Config := { rows := [[chipField]] }

end FormBuilder

namespace FormBuilder


/-- Whether a field contributes an error entry in the submit-time loop:
it is not skipped as hidden, not skipped as a filled select, and its
validation fails with a truthy message. -/
def contributesOnSubmit (cfg : Config) (opts : UseFormBuilderOptions)
    (vals : Values) (f : Field) : Bool :=
  !(f.condition.isSome &&
      !(shouldDisplayField (fieldConditionsMap cfg opts) f.id vals)) &&
  !((f.type == FieldType.select) &&
      !(jsIsEmptyValue (submitFieldValue cfg opts vals f))) &&
  (let result := validateSingleField f.id (submitFieldValue cfg opts vals f) cfg vals
   !result.isValid && errTruthy result.error)

/-- A select field holding a value, with a custom rule that always
rejects — used to witness that the rules are skipped. -/
def countryField : Field :=
  { id := "country", type := .select, required := true,
    options := [("us", "United States"), ("uk", "United Kingdom")],
    validation := Option.some { custom := Option.some (fun _ _ => CustomRes.other) } }

/-- A one-field configuration holding the select field. -/
def cfgCountry : Config := { rows := [[countryField]] }

/-- A plain required text field. -/
def fieldA : Field := { id := "a", type := .text, required := true }

/-- A required text field whose declared condition always hides it. -/
def fieldB : Field :=
  { id := "b", type := .text, required := true,
    condition := Option.some { dependsOn := [], shouldDisplay := fun _ => false } }

/-- A two-field configuration: one visible, one hidden. -/
def cfgTwo : Config := { rows := [[fieldA, fieldB]] }

/-- Construction options with dependency-driven revalidation enabled. -/
def optsDep : UseFormBuilderOptions :=
  { enableAutomaticDependencyRevalidation := true }

/-- The claimed invariant: `isValid` holds iff the error map is empty. -/
def errorsConsistent (s : FState) : Prop :=
  s.isValid = true ↔ s.errors = []

/-- The C7 invariant: `isDirty` holds iff `dirtyFields` is non-empty. -/
def dirtyConsistent (s : FState) : Prop :=
  s.isDirty = true ↔ s.dirtyFields ≠ []

/-- The allowed-call discipline under which the C6 invariant is provable:
every `resetForm` call passes `keepErrors` and `keepIsValid` together
(both or neither). -/
def resetKeepsConsistent : Op → Prop
  | .resetForm o => o.keepErrors = o.keepIsValid
  | _ => True

/-- Hypothesis on the construction options: the whole-form validator,
when present and returning a non-null record, never returns an empty
one. -/
def formValidationNonEmpty (opts : UseFormBuilderOptions) : Prop :=
  ∀ f, opts.formValidation = Option.some f →
    ∀ vals r, f vals = Option.some r → r ≠ []

/-- The allowed-call discipline under which the C7 invariant is
provable: `resetField` is never called (it deletes the dirty flag
without recomputing `isDirty`). -/
def opNotResetField : Op → Prop
  | .resetField _ _ => False
  | _ => True

/-! ## Claim C3: the mask round-trip invariant -/

/-- Claim C3, counterexample: with raw `"7"` and the mask `"5#"` (a
digit literal), `applyMask(r, m)` is `"57"` but the round trip through
`extractRaw` yields `"55"`, so the claimed identity fails. -/
theorem applyMask_roundTrip_counterexample :
    applyMask (extractRaw (applyMask "7" "5#")) "5#" ≠ applyMask "7" "5#" := by
  decide

/-- The mask scan of an empty raw list is empty. -/
theorem maskLoop_nil_right (ms : List Char) : maskLoop ms [] = [] := by
  cases ms <;> rfl

/-- Key lemma: when every mask literal is a non-digit, every raw
character is a digit, and the raw characters fit into the placeholders,
the digits of the scanned output are exactly the raw characters. -/
theorem maskLoop_filter_digits (ms ds : List Char)
    (hlit : ∀ c ∈ ms, c ≠ '#' → c.isDigit = false)
    (hdig : ∀ d ∈ ds, d.isDigit = true)
    (hlen : ds.length ≤ (ms.filter (· = '#')).length) :
    (maskLoop ms ds).filter Char.isDigit = ds := by
  induction ms generalizing ds with
  | nil =>
    have hds : ds = [] := by
      cases ds with
      | nil => rfl
      | cons d ds' => simp at hlen
    subst hds
    rfl
  | cons c ms' ih =>
    cases ds with
    | nil => simp [maskLoop_nil_right]
    | cons d ds' =>
      by_cases hc : c = '#'
      · subst hc
        have hd : d.isDigit = true := hdig d (by simp)
        have heq : maskLoop ('#' :: ms') (d :: ds') = d :: maskLoop ms' ds' := by
          simp [maskLoop]
        rw [heq, List.filter_cons]
        simp only [hd, if_pos]
        have hlen' : ds'.length ≤ (ms'.filter (· = '#')).length := by
          have := hlen
          simp [List.filter_cons] at this
          omega
        rw [ih ds' (fun x hx h2 => hlit x (by simp [hx]) h2)
          (fun x hx => hdig x (by simp [hx])) hlen']
      · have hnd : c.isDigit = false := hlit c (by simp) hc
        have heq : maskLoop (c :: ms') (d :: ds') = c :: maskLoop ms' (d :: ds') := by
          simp [maskLoop, hc]
        rw [heq, List.filter_cons]
        simp only [hnd, Bool.false_eq_true, if_false]
        have hlen' : (d :: ds').length ≤ (ms'.filter (· = '#')).length := by
          have := hlen
          simp [List.filter_cons, hc] at this
          exact this
        exact ih (d :: ds') (fun x hx h2 => hlit x (by simp [hx]) h2) hdig hlen'

/-- Strings built from explicit character lists are empty exactly when
the list is. -/
theorem mk_isEmpty_iff (l : List Char) : (String.mk l).isEmpty = true ↔ l = [] := by
  rw [String.isEmpty_iff]
  constructor
  · intro h
    have := congrArg String.data h
    simpa using this
  · intro h
    subst h
    rfl

/-- Claim C3, amended: the round trip
`applyMask (extractRaw (applyMask r m)) m = applyMask r m` holds whenever
every literal (non-placeholder) character of the mask is a non-digit and
the digits of the raw value fit into the mask placeholders. -/
theorem applyMask_roundTrip (r m : String)
    (hlit : ∀ c ∈ m.data, c ≠ '#' → c.isDigit = false)
    (hlen : (extractRaw r).length ≤ placeholderCount m) :
    applyMask (extractRaw (applyMask r m)) m = applyMask r m := by
  have happly_empty : ∀ v mm : String, v.isEmpty = true → applyMask v mm = "" := by
    intro v mm hv
    rw [applyMask, if_pos (by simp [hv])]
  by_cases hr : r.isEmpty
  · rw [happly_empty r m hr]
    exact happly_empty _ m rfl
  by_cases hm : m.isEmpty
  · have hrm : applyMask r m = "" := by
      rw [applyMask, if_pos (by simp [hm])]
    rw [hrm]
    exact happly_empty _ m rfl
  have hout : applyMask r m = ⟨maskLoop m.data (r.data.filter Char.isDigit)⟩ := by
    rw [applyMask, if_neg (by simp [hr, hm])]
  set D := r.data.filter Char.isDigit with hD
  have hDdig : ∀ d ∈ D, d.isDigit = true := fun d hd => (List.mem_filter.mp hd).2
  have hDlen : D.length ≤ (m.data.filter (· = '#')).length := by
    have hlenD : (extractRaw r).length = D.length := by
      simp [extractRaw, String.length, hD]
    rw [hlenD] at hlen
    exact hlen
  have hkey : (maskLoop m.data D).filter Char.isDigit = D :=
    maskLoop_filter_digits m.data D hlit hDdig hDlen
  have hext : extractRaw (applyMask r m) = ⟨D⟩ := by
    rw [hout]
    show (⟨(maskLoop m.data D).filter Char.isDigit⟩ : String) = ⟨D⟩
    rw [hkey]
  rw [hext]
  rcases Decidable.em (D = []) with hnil | hne
  · have h1 : applyMask (⟨D⟩ : String) m = "" := by
      apply happly_empty
      rw [mk_isEmpty_iff]
      exact hnil
    have h2 : applyMask r m = "" := by
      rw [hout, hnil, maskLoop_nil_right]
    rw [h1, h2]
  · have h1 : (⟨D⟩ : String).isEmpty = false := by
      rcases h : (⟨D⟩ : String).isEmpty with _ | _
      · rfl
      · exact absurd ((mk_isEmpty_iff D).mp h) hne
    rw [applyMask, if_neg (by simp [h1, hm]), hout,
      List.filter_eq_self.mpr hDdig]

/-- Witness for the amended round-trip theorem at the phone mask with a
full ten-digit raw value. -/
theorem applyMask_roundTrip_witness :
    ((∀ c ∈ ("(###) ###-####" : String).data, c ≠ '#' → c.isDigit = false) ∧
      (extractRaw "1234567890").length ≤ placeholderCount "(###) ###-####") ∧
    applyMask (extractRaw (applyMask "1234567890" "(###) ###-####"))
        "(###) ###-####" =
      applyMask "1234567890" "(###) ###-####" :=
  ⟨⟨by decide, by decide⟩, applyMask_roundTrip "1234567890" "(###) ###-####"
    (by decide) (by decide)⟩

/-! ## Claim C4: masked phone field end to end -/

/-- Claim C4, counterexample: masking the raw input `"123"` with the
phone mask yields `"(123"`, not the claimed `"(123) "` — the scan stops
as soon as the raw digits are exhausted, so the literals `") "` after
the third placeholder are never emitted. -/
theorem phoneMask_display123_counterexample :
    applyMask "123" "(###) ###-####" ≠ "(123) " ∧
    applyMask "123" "(###) ###-####" = "(123" := by
  exact ⟨by decide, by decide⟩

/-- Claim C4, amended: raw `"1234567890"` masks to `"(123) 456-7890"`
and validates; raw `"123"` masks to `"(123"` and fails validation with
the digit-count message. -/
theorem phoneMask_endToEnd :
    applyMask "1234567890" "(###) ###-####" = "(123) 456-7890" ∧
    validateSingleField "phone" (.str "1234567890") cfgPhone undefVals =
      VResult.ok ∧
    applyMask "123" "(###) ###-####" = "(123" ∧
    validateSingleField "phone" (.str "123") cfgPhone undefVals =
      VResult.fail "Must be 10 digits" := by
  refine ⟨by decide, ?_, by decide, ?_⟩ <;> rfl

/-! ## Claim C5: required list-typed fields and blank lists -/

/-- Claim C5, counterexample: a required chip field with no `minItems`,
validated against the empty list, passes — the required check never
fires for list values (an empty array is not `undefined`/`null`/`''`)
and the bounds check is skipped when `minItems` is absent. -/
theorem chipRequired_emptyList_counterexample :
    (validateSingleField "tags" (.list []) cfgChip undefVals).isValid = true := by
  rfl

/-- Claim C5, amended: validating an empty or all-blank list on a
required list-typed (array/chip) field passes the required check
outright; it reports the min-items message (not the required message)
exactly when a non-zero `minItems` is declared. -/
theorem listField_blankItems_validation (cfg : Config) (f : Field) (fid : String)
    (vals : Values) (l : List JValue)
    (hfind : findFieldLast cfg fid = Option.some f)
    (htype : f.type = FieldType.array ∨ f.type = FieldType.chip)
    (hreq : f.required = true)
    (hblank : ∀ x ∈ l, jsItemNonBlank x = false) :
    validateSingleField fid (.list l) cfg vals =
      if numTruthy f.minItems then
        VResult.fail ("Minimum " ++ toString (f.minItems.getD 0) ++ " items required")
      else VResult.ok := by
  have hnotsel : ¬ f.type = FieldType.select := by
    rcases htype with h | h <;> simp [h]
  have hfilter : l.filter jsItemNonBlank = [] := by
    rw [List.filter_eq_nil_iff]
    intro a ha
    simp [hblank a ha]
  rw [validateSingleField, hfind]
  simp only [List.foldl_nil]
  rw [validateFieldRules]
  simp only [hreq, if_true, hnotsel, if_false, jsIsEmptyValue, if_neg]
  rw [validateAfterRequired, if_pos htype]
  simp only [hfilter]
  rcases hmin : f.minItems with _ | k
  · simp [numTruthy, hmin]
  · rcases Decidable.em (k = 0) with hk | hk
    · simp [numTruthy, hmin, hk]
    · have : 0 < k := Nat.pos_of_ne_zero hk
      simp [numTruthy, hmin, hk, this]

/-- Witness for the amended list-field theorem: the required chip field
without `minItems` and the empty list evaluate to a pass. -/
theorem listField_blankItems_validation_witness :
    (findFieldLast cfgChip "tags" = Option.some chipField ∧
      (chipField.type = FieldType.array ∨ chipField.type = FieldType.chip) ∧
      chipField.required = true ∧
      (∀ x ∈ ([] : List JValue), jsItemNonBlank x = false)) ∧
    validateSingleField "tags" (.list []) cfgChip undefVals =
      (if numTruthy chipField.minItems then
        VResult.fail
          ("Minimum " ++ toString (chipField.minItems.getD 0) ++ " items required")
      else VResult.ok) :=
  ⟨⟨rfl, Or.inr rfl, rfl, by simp⟩,
    listField_blankItems_validation cfgChip chipField "tags" undefVals []
      rfl (Or.inr rfl) rfl (by simp)⟩

/-! ## Claims C8 and C10: array operation semantics -/

/-- `validateField` only touches the validation-related parts of the
state: values, dirty, touched, submit and loading bookkeeping are
untouched. -/
theorem validateFieldApply_preserves (cfg : Config) (opts : UseFormBuilderOptions)
    (rv : Values) (n : String) (v : JValue) (s : FState) :
    ((validateFieldApply cfg opts rv n v s).1).values = s.values ∧
    ((validateFieldApply cfg opts rv n v s).1).isDirty = s.isDirty ∧
    ((validateFieldApply cfg opts rv n v s).1).dirtyFields = s.dirtyFields ∧
    ((validateFieldApply cfg opts rv n v s).1).touchedFields = s.touchedFields ∧
    ((validateFieldApply cfg opts rv n v s).1).isSubmitted = s.isSubmitted ∧
    ((validateFieldApply cfg opts rv n v s).1).isSubmitting = s.isSubmitting ∧
    ((validateFieldApply cfg opts rv n v s).1).isSubmitSuccessful = s.isSubmitSuccessful ∧
    ((validateFieldApply cfg opts rv n v s).1).submitCount = s.submitCount ∧
    ((validateFieldApply cfg opts rv n v s).1).isLoading = s.isLoading ∧
    ((validateFieldApply cfg opts rv n v s).1).loadingFields = s.loadingFields := by
  exact ⟨rfl, rfl, rfl, rfl, rfl, rfl, rfl, rfl, rfl, rfl⟩

/-- The flag-set insertion always contains the inserted key. -/
theorem mem_setFlag (l : List String) (k : String) : k ∈ setFlag l k := by
  rw [setFlag]
  split
  · assumption
  · simp

/-- Claim C8, confirmed: for in-range indices, `move(src, dst)` stores
the list obtained by removing the element at `src` and inserting it at
position `dst` of the shortened list — standard splice semantics. -/
theorem arrayMove_spliceSemantics (cfg : Config) (opts : UseFormBuilderOptions)
    (defaults : Values) (s : FState) (fid : String) (L : List JValue)
    (src dst : Nat)
    (harr : isArrayFieldId cfg fid = true)
    (hval : s.values fid = .list L)
    (hsrc : src < L.length)
    (hdst : dst < L.length) :
    (applyOp cfg opts defaults (Op.arrayMove fid (src : Int) (dst : Int)) s).values fid
      = .list ((L.eraseIdx src).insertIdx dst (L.get ⟨src, hsrc⟩)) := by
  have hmove : jsMove L (src : Int) (dst : Int) =
      (L.eraseIdx src).insertIdx dst (L.get ⟨src, hsrc⟩) := by
    rw [jsMove]
    have hidx : jsSpliceIdx L.length (src : Int) = src := by
      rw [jsSpliceIdx, if_neg (by omega)]
      simp [Nat.min_eq_left (Nat.le_of_lt hsrc)]
    have hlen' : (L.eraseIdx src).length = L.length - 1 := by
      rw [List.length_eraseIdx]
      simp [hsrc]
    have hidx2 : jsSpliceIdx (L.eraseIdx src).length (dst : Int) = dst := by
      rw [jsSpliceIdx, if_neg (by omega), hlen']
      simp only [Int.toNat_natCast]
      omega
    rw [hidx, hidx2, List.get?_eq_get hsrc]
    rfl
  rw [applyOp, if_pos harr, hval]
  have hspread : jsArrSpread (.list L) = Option.some L := by
    rw [jsArrSpread]
    split
    · simp [jsTruthy] at *
    · rfl
  rw [hspread]
  show (arrayMutApply cfg opts fid (jsMove L (src : Int) (dst : Int)) s).values fid = _
  rw [arrayMutApply]
  rw [(validateFieldApply_preserves cfg opts s.values fid
    (.list (jsMove L (src : Int) (dst : Int))) _).1]
  show setVal s.values fid (.list (jsMove L (src : Int) (dst : Int))) fid = _
  rw [setVal, if_pos rfl, hmove]

/-- Witness for the move theorem: `move(0, 2)` on `[a, b, c, d]` stores
`[b, c, a, d]`. -/
theorem arrayMove_spliceSemantics_witness :
    (isArrayFieldId cfgChip "tags" = true ∧
      (initState (setVal undefVals "tags"
        (.list [.str "a", .str "b", .str "c", .str "d"]))).values "tags" =
        .list [.str "a", .str "b", .str "c", .str "d"] ∧
      0 < ([.str "a", .str "b", .str "c", .str "d"] : List JValue).length ∧
      2 < ([.str "a", .str "b", .str "c", .str "d"] : List JValue).length) ∧
    (applyOp cfgChip {} undefVals (Op.arrayMove "tags" 0 2)
        (initState (setVal undefVals "tags"
          (.list [.str "a", .str "b", .str "c", .str "d"])))).values "tags" =
      .list [.str "b", .str "c", .str "a", .str "d"] :=
  ⟨⟨rfl, rfl, by decide, by decide⟩,
    (arrayMove_spliceSemantics cfgChip {} undefVals
      (initState (setVal undefVals "tags"
        (.list [.str "a", .str "b", .str "c", .str "d"])))
      "tags" [.str "a", .str "b", .str "c", .str "d"] 0 2
      rfl rfl (by decide) (by decide)).trans rfl⟩

/-- Out-of-range indices leave the filter-based removal untouched. -/
theorem jsRemoveFilter_outOfRange (l : List JValue) (index : Int)
    (h : index < 0 ∨ (l.length : Int) ≤ index) :
    jsRemoveFilter l index = l := by
  rw [jsRemoveFilter]
  have hall : ∀ p ∈ l.enum, (decide ((p.1 : Int) ≠ index)) = true := by
    intro p hp
    have hlt : p.1 < l.length :=
      (List.getElem?_eq_some.mp (List.mem_enum_iff_getElem?.mp hp)).1
    simp only [decide_eq_true_eq]
    omega
  rw [List.filter_eq_self.mpr hall, List.enum_map_snd]

/-- Claim C10, confirmed: `remove(index)` with an out-of-range index
behaves exactly like re-storing the unchanged list: the stored value
equals the current list, the field is still marked dirty (with
`isDirty`), and validation re-runs for the field. -/
theorem arrayRemove_outOfRange (cfg : Config) (opts : UseFormBuilderOptions)
    (defaults : Values) (s : FState) (fid : String) (L : List JValue)
    (index : Int)
    (harr : isArrayFieldId cfg fid = true)
    (hval : s.values fid = .list L)
    (hoob : index < 0 ∨ (L.length : Int) ≤ index) :
    (applyOp cfg opts defaults (Op.arrayRemove fid index) s) =
      arrayMutApply cfg opts fid L s ∧
    (applyOp cfg opts defaults (Op.arrayRemove fid index) s).values fid = .list L ∧
    (applyOp cfg opts defaults (Op.arrayRemove fid index) s).isDirty = true ∧
    fid ∈ (applyOp cfg opts defaults (Op.arrayRemove fid index) s).dirtyFields := by
  have honly : jsArrOnly (.list L) = Option.some L := by
    rw [jsArrOnly]
    split
    · simp [jsTruthy] at *
    · rfl
  have happ : (applyOp cfg opts defaults (Op.arrayRemove fid index) s) =
      arrayMutApply cfg opts fid L s := by
    rw [applyOp, if_pos harr, hval, honly]
    show arrayMutApply cfg opts fid (jsRemoveFilter L index) s = _
    rw [jsRemoveFilter_outOfRange L index hoob]
  refine ⟨happ, ?_, ?_, ?_⟩
  · rw [happ, arrayMutApply,
      (validateFieldApply_preserves cfg opts s.values fid (.list L) _).1]
    show setVal s.values fid (.list L) fid = .list L
    rw [setVal, if_pos rfl]
  · rw [happ, arrayMutApply,
      (validateFieldApply_preserves cfg opts s.values fid (.list L) _).2.1]
  · rw [happ, arrayMutApply,
      (validateFieldApply_preserves cfg opts s.values fid (.list L) _).2.2.1]
    exact mem_setFlag s.dirtyFields fid

/-- Witness for the out-of-range removal theorem at index 5 on a
two-element chip list. -/
theorem arrayRemove_outOfRange_witness :
    (isArrayFieldId cfgChip "tags" = true ∧
      (initState (setVal undefVals "tags"
        (.list [.str "a", .str "b"]))).values "tags" = .list [.str "a", .str "b"] ∧
      ((5 : Int) < 0 ∨ (([.str "a", .str "b"] : List JValue).length : Int) ≤ 5)) ∧
    (applyOp cfgChip {} undefVals (Op.arrayRemove "tags" 5)
        (initState (setVal undefVals "tags"
          (.list [.str "a", .str "b"])))).values "tags" = .list [.str "a", .str "b"] :=
  ⟨⟨rfl, rfl, by decide⟩,
    (arrayRemove_outOfRange cfgChip {} undefVals
      (initState (setVal undefVals "tags" (.list [.str "a", .str "b"])))
      "tags" [.str "a", .str "b"] 5 rfl rfl (by decide)).2.1⟩

/-! ## Claim C9: select fields with a value skip all validation rules -/


/-- The submit step either contributes the field's error entry or leaves
the accumulator untouched. -/
theorem submitStep_eq (cfg : Config) (opts : UseFormBuilderOptions) (vals : Values)
    (acc : List (String × String) × Bool) (f : Field) :
    submitStep cfg opts vals acc f =
      if contributesOnSubmit cfg opts vals f then
        (objInsert acc.1 f.id
          ((validateSingleField f.id (submitFieldValue cfg opts vals f) cfg
            vals).error.getD ""), false)
      else acc := by
  rw [submitStep, contributesOnSubmit]
  rcases h1 : f.condition.isSome &&
      !(shouldDisplayField (fieldConditionsMap cfg opts) f.id vals) with _ | _
  · rcases h2 : (f.type == FieldType.select) &&
        !(jsIsEmptyValue (submitFieldValue cfg opts vals f)) with _ | _
    · rcases h3 : !(validateSingleField f.id (submitFieldValue cfg opts vals f) cfg
          vals).isValid && errTruthy (validateSingleField f.id
          (submitFieldValue cfg opts vals f) cfg vals).error with _ | _
      · simp [h1, h2, h3]
      · simp [h1, h2, h3]
    · simp [h1, h2]
  · simp [h1]

/-- Membership in an object after assignment comes from the old object
or carries the assigned key. -/
theorem mem_objInsert (m : List (String × String)) (k v : String)
    (p : String × String) (hp : p ∈ objInsert m k v) : p ∈ m ∨ p.1 = k := by
  rw [objInsert] at hp
  split at hp
  · rcases List.mem_map.mp hp with ⟨q, hq, hqe⟩
    by_cases hqk : q.1 = k
    · right
      rw [if_pos hqk] at hqe
      rw [← hqe]
    · left
      rw [if_neg hqk] at hqe
      rw [← hqe]
      exact hq
  · rcases List.mem_append.mp hp with h | h
    · exact Or.inl h
    · right
      simp at h
      simp [h]

/-- No entry for a field id appears in the submit fold when every field
carrying that id is a select holding a non-empty value. -/
theorem submit_fold_no_key (cfg : Config) (opts : UseFormBuilderOptions)
    (vals : Values) (name : String) :
    ∀ (l : List Field) (acc : List (String × String) × Bool),
      (∀ e, (name, e) ∉ acc.1) →
      (∀ g ∈ l, g.id = name → g.type = FieldType.select ∧
        jsIsEmptyValue (submitFieldValue cfg opts vals g) = false) →
      ∀ e, (name, e) ∉ (l.foldl (submitStep cfg opts vals) acc).1 := by
  intro l
  induction l with
  | nil => intro acc hacc _ e; exact hacc e
  | cons f l' ih =>
    intro acc hacc hall e
    rw [List.foldl_cons]
    refine ih (submitStep cfg opts vals acc f) ?_
      (fun g hg hgid => hall g (by simp [hg]) hgid) e
    intro e'
    rw [submitStep_eq]
    split
    · intro hmem
      rcases mem_objInsert _ _ _ _ hmem with h | h
      · exact hacc e' h
      · -- the contributing field would have id `name`, but then it is a
        -- filled select and cannot contribute
        simp only at h
        have hsel := hall f (by simp) h.symm
        rename_i hcontr
        rw [contributesOnSubmit] at hcontr
        simp [hsel.1, hsel.2] at hcontr
    · exact hacc e'
  
/-- Claim C9, confirmed: `validateField` on a select field with any
non-empty candidate value returns `true` and deletes the field's error
without consulting its validation rules (the field's `validation` is
arbitrary here), and the submit-time loop of `handleSubmit` never
records an error for an id whose fields are all selects holding
non-empty values. -/
theorem selectField_skipsValidation (cfg : Config) (opts : UseFormBuilderOptions)
    (readVals vals : Values) (s : FState) (name : String) (v : JValue) (f : Field)
    (hf : findFieldFirst cfg name = Option.some f)
    (hsel : f.type = FieldType.select)
    (hne : jsIsEmptyValue v = false)
    (hall : ∀ g ∈ fieldsOf cfg, g.id = name → g.type = FieldType.select ∧
      jsIsEmptyValue (submitFieldValue cfg opts vals g) = false) :
    (validateFieldApply cfg opts readVals name v s).2 = true ∧
    ((validateFieldApply cfg opts readVals name v s).1).errors =
      objErase s.errors name ∧
    (∀ e, (name, e) ∉ (submitErrorsAndValid cfg opts vals).1) := by
  have hvt : valueToValidateOf readVals name v = v := by
    unfold valueToValidateOf
    cases v <;> first
      | rfl
      | (exfalso; simp [jsIsEmptyValue] at hne)
  have hskip : validateFieldSkipEarly cfg opts readVals name v = true := by
    rw [validateFieldSkipEarly, hf]
    simp [hsel, hne]
  refine ⟨?_, ?_, ?_⟩
  · simp [validateFieldApply, hvt, hskip]
  · simp [validateFieldApply, hvt, hskip]
  · exact submit_fold_no_key cfg opts vals name (fieldsOf cfg) ([], true)
      (by intro e; simp) hall



/-- Witness: the always-rejecting select field with value `"us"` passes
`validateField`, its error entry is removed, and the submit loop records
nothing for it. -/
theorem selectField_skipsValidation_witness :
    (findFieldFirst cfgCountry "country" = Option.some countryField ∧
      countryField.type = FieldType.select ∧
      jsIsEmptyValue (.str "us") = false) ∧
    (validateFieldApply cfgCountry {} (setVal undefVals "country" (.str "us"))
      "country" (.str "us") (initState (setVal undefVals "country" (.str "us")))).2
      = true ∧
    ((validateFieldApply cfgCountry {} (setVal undefVals "country" (.str "us"))
      "country" (.str "us")
      (initState (setVal undefVals "country" (.str "us")))).1).errors =
      objErase (initState (setVal undefVals "country" (.str "us"))).errors
        "country" ∧
    (∀ e, ("country", e) ∉ (submitErrorsAndValid cfgCountry {}
      (setVal undefVals "country" (.str "us"))).1) :=
  ⟨⟨rfl, rfl, rfl⟩,
    selectField_skipsValidation cfgCountry {}
      (setVal undefVals "country" (.str "us"))
      (setVal undefVals "country" (.str "us"))
      (initState (setVal undefVals "country" (.str "us")))
      "country" (.str "us") countryField rfl rfl rfl
      (by
        intro g hg hgid
        have hgf : g = countryField := by
          simp [fieldsOf, cfgCountry] at hg
          exact hg
        subst hgf
        exact ⟨rfl, rfl⟩)⟩

/-! ## Claim C1: ambient validation mode and setValue -/

/-- Claim C1, code bug: for ANY construction options — in particular an
ambient mode of `onChange` — a `setValue` call without per-call options
leaves the error map untouched: line 1161 reads the mode from the
per-call options object in both branches of its fallback conditional
(`options?.mode !== undefined ? options.mode : options?.mode`), so the
construction-time mode is never consulted, contradicting the comment
above it ("then fall back to global hook options").  By contrast, the
validation that the call was supposed to trigger would have recorded the
required-field error, as the second conjunct shows. -/
theorem setValue_ignoresAmbientMode (opts : UseFormBuilderOptions) (s : FState) :
    (setValueApply cfgPhone opts "phone" (.str "") {} s).errors = s.errors ∧
    ((validateFieldApply cfgPhone { mode := Option.some Mode.onChange } undefVals
      "phone" (.str "") (initState undefVals)).1).errors =
      [("phone", "This field is required")] :=
  ⟨rfl, rfl⟩

/-! ## Claim C2: hidden fields at submission time -/




/-- Claim C2, counterexample: when the form is constructed WITHOUT
`enableAutomaticDependencyRevalidation`, the condition-registration
effect never runs, `fieldConditions` stays empty, and `handleSubmit`
validates the hidden field too — the error map has two entries, not
one. -/
theorem handleSubmit_hiddenField_counterexample :
    (handleSubmitApply cfgTwo {} (initState undefVals)).errors =
      [("a", "This field is required"), ("b", "This field is required")] :=
  rfl

/-- A fold over non-contributing fields leaves the accumulator alone. -/
theorem submit_fold_none (cfg : Config) (opts : UseFormBuilderOptions)
    (vals : Values) :
    ∀ (l : List Field) (acc : List (String × String) × Bool),
      (∀ f ∈ l, contributesOnSubmit cfg opts vals f = false) →
      l.foldl (submitStep cfg opts vals) acc = acc := by
  intro l
  induction l with
  | nil => intro acc _; rfl
  | cons f l' ih =>
    intro acc hall
    rw [List.foldl_cons, submitStep_eq, if_neg (by simp [hall f (by simp)])]
    exact ih acc (fun g hg => hall g (by simp [hg]))

/-- A fold whose only contributing field is `v` produces exactly the
entry for `v`. -/
theorem submit_fold_single (cfg : Config) (opts : UseFormBuilderOptions)
    (vals : Values) (v : Field) :
    ∀ (l : List Field) (acc : List (String × String) × Bool),
      l.filter (contributesOnSubmit cfg opts vals) = [v] →
      l.foldl (submitStep cfg opts vals) acc =
        (objInsert acc.1 v.id
          ((validateSingleField v.id (submitFieldValue cfg opts vals v) cfg
            vals).error.getD ""), false) := by
  intro l
  induction l with
  | nil => intro acc hf; exact absurd hf (by simp)
  | cons f l' ih =>
    intro acc hf
    rw [List.foldl_cons, submitStep_eq]
    rcases hc : contributesOnSubmit cfg opts vals f with _ | _
    · rw [if_neg (by simp [hc])]
      refine ih acc ?_
      rw [List.filter_cons, if_neg (by simp [hc])] at hf
      exact hf
    · rw [List.filter_cons, if_pos (by simp [hc])] at hf
      have hfv : f = v := by
        have := List.head_eq_of_cons_eq hf
        exact this
      have hrest : l'.filter (contributesOnSubmit cfg opts vals) = [] :=
        List.tail_eq_of_cons_eq hf
      rw [if_pos (by simp [hc])]
      rw [submit_fold_none cfg opts vals l' _
        (fun g hg => by
          rcases hcg : contributesOnSubmit cfg opts vals g with _ | _
          · rfl
          · exact absurd (List.filter_eq_nil_iff.mp hrest g hg) (by simp [hcg]))]
      rw [hfv]

/-- Claim C2, amended: when the form is constructed with
`enableAutomaticDependencyRevalidation` (so declared conditions are
registered), with a mode that validates on submit and no whole-form
validator, a submission whose only contributing (visible, invalid)
field is `v` — while the invalid field `h` is hidden by its condition —
ends with exactly `v`'s entry in the error map; any stale error of `h`
is gone because the map is rebuilt from scratch. -/
theorem handleSubmit_hiddenField_amended (cfg : Config)
    (opts : UseFormBuilderOptions) (s : FState) (v h : Field)
    (hval : shouldValidateOnSubmit opts = true)
    (hfv : opts.formValidation = Option.none)
    (_hdep : opts.enableAutomaticDependencyRevalidation = true)
    (hfilter : (fieldsOf cfg).filter (contributesOnSubmit cfg opts s.values) = [v])
    (_hh : h ∈ fieldsOf cfg)
    (_hhcond : h.condition.isSome = true)
    (_hhhidden : shouldDisplayField (fieldConditionsMap cfg opts) h.id s.values = false)
    (hne : h.id ≠ v.id) :
    (handleSubmitApply cfg opts s).errors =
      [(v.id, (validateSingleField v.id (submitFieldValue cfg opts s.values v) cfg
        s.values).error.getD "")] ∧
    ∀ e, (h.id, e) ∉ (handleSubmitApply cfg opts s).errors := by
  have hev : submitErrorsAndValid cfg opts s.values =
      ([(v.id, (validateSingleField v.id (submitFieldValue cfg opts s.values v) cfg
        s.values).error.getD "")], false) := by
    rw [submitErrorsAndValid,
      submit_fold_single cfg opts s.values v (fieldsOf cfg) ([], true) hfilter]
    rfl
  have herr : (handleSubmitApply cfg opts s).errors =
      [(v.id, (validateSingleField v.id (submitFieldValue cfg opts s.values v) cfg
        s.values).error.getD "")] := by
    rw [handleSubmitApply, if_neg (by simp [hval]), hfv, hev]
  refine ⟨herr, ?_⟩
  intro e hmem
  rw [herr] at hmem
  simp at hmem
  exact hne hmem.1


/-- Witness for the amended submission theorem on the two-field
configuration: only the visible field's error is reported and the hidden
field's id is absent. -/
theorem handleSubmit_hiddenField_amended_witness :
    (shouldValidateOnSubmit optsDep = true ∧
      optsDep.formValidation = Option.none ∧
      optsDep.enableAutomaticDependencyRevalidation = true ∧
      (fieldsOf cfgTwo).filter
        (contributesOnSubmit cfgTwo optsDep (initState undefVals).values) =
        [fieldA] ∧
      fieldB ∈ fieldsOf cfgTwo ∧
      fieldB.condition.isSome = true ∧
      shouldDisplayField (fieldConditionsMap cfgTwo optsDep) fieldB.id
        (initState undefVals).values = false ∧
      fieldB.id ≠ fieldA.id) ∧
    (handleSubmitApply cfgTwo optsDep (initState undefVals)).errors =
      [(fieldA.id, (validateSingleField fieldA.id
        (submitFieldValue cfgTwo optsDep (initState undefVals).values fieldA)
        cfgTwo (initState undefVals).values).error.getD "")] ∧
    ∀ e, (fieldB.id, e) ∉
      (handleSubmitApply cfgTwo optsDep (initState undefVals)).errors :=
  ⟨⟨rfl, rfl, rfl, rfl, by simp [fieldsOf, cfgTwo], rfl, rfl, by decide⟩,
    handleSubmit_hiddenField_amended cfgTwo optsDep (initState undefVals)
      fieldA fieldB rfl rfl rfl rfl (by simp [fieldsOf, cfgTwo]) rfl rfl
      (by decide)⟩

/-! ## Claim C6: isValid tracks emptiness of the error map -/



/-- JS object assignment never produces an empty object. -/
theorem objInsert_ne_nil (m : List (String × String)) (k v : String) :
    objInsert m k v ≠ [] := by
  rw [objInsert]
  split
  · intro h
    rename_i hany
    have hm : m = [] := by
      have hl := congrArg List.length h
      simpa using hl
    rw [hm] at hany
    simp at hany
  · simp

/-- The flag-set insertion never produces an empty set. -/
theorem setFlag_ne_nil (l : List String) (k : String) : setFlag l k ≠ [] := by
  rw [setFlag]
  split
  · intro h
    rename_i hk
    rw [h] at hk
    simp at hk
  · simp

/-- Folding object assignments over a non-empty starting object keeps it
non-empty. -/
theorem foldl_objInsert_ne_nil (m : List (String × String))
    (E : List (String × String)) (hE : E ≠ []) :
    m.foldl (fun acc p => objInsert acc p.1 p.2) E ≠ [] := by
  induction m generalizing E with
  | nil => exact hE
  | cons p m' ih =>
    rw [List.foldl_cons]
    exact ih (objInsert E p.1 p.2) (objInsert_ne_nil E p.1 p.2)

/-- Every `validateField` call re-establishes the error/valid
invariant. -/
theorem validateFieldApply_consistent (cfg : Config) (opts : UseFormBuilderOptions)
    (rv : Values) (n : String) (v : JValue) (s : FState) :
    errorsConsistent ((validateFieldApply cfg opts rv n v s).1) :=
  List.isEmpty_iff

/-- A fold of `validateField` calls preserves the error/valid
invariant. -/
theorem foldl_validateFieldApply_consistent (cfg : Config)
    (opts : UseFormBuilderOptions) (rv : Values) (deps : List String) (st : FState)
    (h : errorsConsistent st) :
    errorsConsistent (deps.foldl
      (fun st dep => (validateFieldApply cfg opts rv dep (rv dep) st).1) st) := by
  induction deps generalizing st with
  | nil => exact h
  | cons d ds ih =>
    rw [List.foldl_cons]
    exact ih _ (validateFieldApply_consistent cfg opts rv d (rv d) _)

/-- The non-validating part of `setValue` preserves the error/valid
invariant: either it leaves errors and validity untouched, or (for a
filled select) it deletes the field error and recomputes validity. -/
theorem setValuePlain_errorsConsistent (cfg : Config)
    (opts : UseFormBuilderOptions) (name : String) (v : JValue)
    (callOpts : SetValueOptions) (s : FState) (h : errorsConsistent s) :
    errorsConsistent (setValuePlain cfg opts name v callOpts s) := by
  unfold setValuePlain errorsConsistent
  rcases hsp : selectPreCond cfg opts name v callOpts with _ | _
  · simp only [hsp, Bool.false_eq_true, if_false]
    exact h
  · simp only [hsp, if_true]
    exact List.isEmpty_iff

/-- `setValue` preserves the error/valid invariant. -/
theorem setValueApply_errorsConsistent (cfg : Config)
    (opts : UseFormBuilderOptions) (name : String) (v : JValue)
    (callOpts : SetValueOptions) (s : FState) (h : errorsConsistent s) :
    errorsConsistent (setValueApply cfg opts name v callOpts s) := by
  unfold setValueApply
  split
  · split
    · exact foldl_validateFieldApply_consistent _ _ _ _ _
        (validateFieldApply_consistent _ _ _ _ _ _)
    · exact validateFieldApply_consistent _ _ _ _ _ _
  · exact setValuePlain_errorsConsistent cfg opts name v callOpts s h

/-- Every array operation tail re-establishes the error/valid
invariant. -/
theorem arrayMutApply_errorsConsistent (cfg : Config)
    (opts : UseFormBuilderOptions) (fid : String) (newList : List JValue)
    (s : FState) : errorsConsistent (arrayMutApply cfg opts fid newList s) :=
  validateFieldApply_consistent cfg opts s.values fid (.list newList) _

/-- The accumulated validity flag of the submit loop is true exactly
when the accumulated error object is empty. -/
theorem submit_fold_consistent (cfg : Config) (opts : UseFormBuilderOptions)
    (vals : Values) :
    ∀ (l : List Field) (acc : List (String × String) × Bool),
      (acc.2 = true ↔ acc.1 = []) →
      ((l.foldl (submitStep cfg opts vals) acc).2 = true ↔
        (l.foldl (submitStep cfg opts vals) acc).1 = []) := by
  intro l
  induction l with
  | nil => intro acc h; exact h
  | cons f l' ih =>
    intro acc h
    rw [List.foldl_cons, submitStep_eq]
    split
    · refine ih _ ?_
      constructor
      · intro hfalse
        simp at hfalse
      · intro hnil
        exact absurd hnil (objInsert_ne_nil _ _ _)
    · exact ih acc h

/-- Folding at least one object assignment produces a non-empty
object. -/
theorem foldl_objInsert_ne_nil_of_entries (m : List (String × String))
    (E : List (String × String)) (hm : m ≠ []) :
    m.foldl (fun acc p => objInsert acc p.1 p.2) E ≠ [] := by
  cases m with
  | nil => exact absurd rfl hm
  | cons p m' =>
    rw [List.foldl_cons]
    exact foldl_objInsert_ne_nil m' (objInsert E p.1 p.2)
      (objInsert_ne_nil E p.1 p.2)

/-- `handleSubmit` preserves the error/valid invariant when the
whole-form validator never returns an empty (non-null) error record. -/
theorem handleSubmitApply_errorsConsistent (cfg : Config)
    (opts : UseFormBuilderOptions) (s : FState)
    (hfv : ∀ f, opts.formValidation = Option.some f →
      ∀ vals r, f vals = Option.some r → r ≠ [])
    (h : errorsConsistent s) :
    errorsConsistent (handleSubmitApply cfg opts s) := by
  unfold handleSubmitApply
  split
  · exact h
  · split
    · exact submit_fold_consistent cfg opts s.values (fieldsOf cfg) ([], true)
        (by simp)
    · next fv hfveq =>
      split
      · exact submit_fold_consistent cfg opts s.values (fieldsOf cfg) ([], true)
          (by simp)
      · next formErrs hres =>
        refine ⟨fun hfalse => by simp at hfalse, fun hnil => ?_⟩
        exact absurd hnil (foldl_objInsert_ne_nil_of_entries formErrs _
          (hfv fv hfveq s.values formErrs hres))

/-- `resetField` re-establishes the error/valid invariant outright. -/
theorem resetFieldApply_errorsConsistent (defaults : Values) (name : String)
    (o : FieldResetOptions) (s : FState) :
    errorsConsistent (resetFieldApply defaults name o s) :=
  List.isEmpty_iff

/-- `resetForm` preserves the error/valid invariant when its
`keepErrors` and `keepIsValid` flags agree. -/
theorem resetFormApply_errorsConsistent (defaults : Values) (o : FormResetOptions)
    (s : FState) (hk : o.keepErrors = o.keepIsValid) (h : errorsConsistent s) :
    errorsConsistent (resetFormApply defaults o s) := by
  unfold resetFormApply errorsConsistent
  rcases hkv : o.keepIsValid with _ | _
  · rw [hkv] at hk
    simp [hk, hkv]
  · rw [hkv] at hk
    simp only [hk, hkv, if_true]
    exact h



/-- One allowed operation preserves the error/valid invariant. -/
theorem applyOp_errorsConsistent (cfg : Config) (opts : UseFormBuilderOptions)
    (defaults : Values) (o : Op) (s : FState)
    (hop : resetKeepsConsistent o)
    (hfv : formValidationNonEmpty opts)
    (h : errorsConsistent s) :
    errorsConsistent (applyOp cfg opts defaults o s) := by
  cases o with
  | setValue n v co => exact setValueApply_errorsConsistent cfg opts n v co s h
  | validateField n v => exact validateFieldApply_consistent cfg opts s.values n v s
  | arrayAppend fid v =>
    rw [applyOp]
    split
    · split
      · exact arrayMutApply_errorsConsistent cfg opts fid _ s
      · exact h
    · exact h
  | arrayPrepend fid v =>
    rw [applyOp]
    split
    · split
      · exact arrayMutApply_errorsConsistent cfg opts fid _ s
      · exact h
    · exact h
  | arrayRemove fid i =>
    rw [applyOp]
    split
    · split
      · exact arrayMutApply_errorsConsistent cfg opts fid _ s
      · exact h
    · exact h
  | arraySwap fid a b =>
    rw [applyOp]
    split
    · split
      · exact arrayMutApply_errorsConsistent cfg opts fid _ s
      · exact h
    · exact h
  | arrayMove fid a b =>
    rw [applyOp]
    split
    · split
      · exact arrayMutApply_errorsConsistent cfg opts fid _ s
      · exact h
    · exact h
  | arrayInsert fid i v =>
    rw [applyOp]
    split
    · split
      · exact arrayMutApply_errorsConsistent cfg opts fid _ s
      · exact h
    · exact h
  | handleSubmit => exact handleSubmitApply_errorsConsistent cfg opts s hfv h
  | submitSettle b =>
    rw [applyOp]
    unfold submitSettleApply
    split
    · exact h
    · exact h
  | resetForm o => exact resetFormApply_errorsConsistent defaults o s hop h
  | resetField n o => exact resetFieldApply_errorsConsistent defaults n o s
  | setLoading b => exact h
  | setFieldLoading fid b => exact h

/-- Claim C6, amended: in every state reachable from the initial state
through the exposed mutation operations, `isValid` is true iff the error
map is empty — provided every `resetForm` call keeps `keepErrors` and
`keepIsValid` in agreement and the whole-form validator never returns an
empty non-null record. -/
theorem isValid_iff_errors_empty (cfg : Config) (opts : UseFormBuilderOptions)
    (defaults v0 : Values) (ops : List Op)
    (hops : ∀ o ∈ ops, resetKeepsConsistent o)
    (hfv : formValidationNonEmpty opts) :
    (runOps cfg opts defaults ops (initState v0)).isValid = true ↔
      (runOps cfg opts defaults ops (initState v0)).errors = [] := by
  have hgen : ∀ (l : List Op) (s : FState), (∀ o ∈ l, resetKeepsConsistent o) →
      errorsConsistent s →
      errorsConsistent (l.foldl (fun st o => applyOp cfg opts defaults o st) s) := by
    intro l
    induction l with
    | nil => intro s _ hs; exact hs
    | cons o l' ih =>
      intro s hl hs
      rw [List.foldl_cons]
      exact ih _ (fun o ho => hl o (by simp [ho]))
        (applyOp_errorsConsistent cfg opts defaults o s (hl o (by simp)) hfv hs)
  exact hgen ops (initState v0) hops (by exact Iff.intro (fun _ => rfl) (fun _ => rfl))

/-- Witness for the amended C6 invariant: one validate-then-reset run on
the phone form. -/
theorem isValid_iff_errors_empty_witness :
    ((∀ o ∈ [Op.validateField "phone" (.str ""),
        Op.resetForm { keepErrors := true, keepIsValid := true }],
      resetKeepsConsistent o) ∧
      formValidationNonEmpty {}) ∧
    ((runOps cfgPhone {} undefVals
      [Op.validateField "phone" (.str ""),
        Op.resetForm { keepErrors := true, keepIsValid := true }]
      (initState undefVals)).isValid = true ↔
      (runOps cfgPhone {} undefVals
        [Op.validateField "phone" (.str ""),
          Op.resetForm { keepErrors := true, keepIsValid := true }]
        (initState undefVals)).errors = []) :=
  ⟨⟨by
      intro o ho
      simp at ho
      rcases ho with h | h <;> (rw [h]; simp [resetKeepsConsistent]),
    by
      intro f hf
      simp at hf⟩,
    isValid_iff_errors_empty cfgPhone {} undefVals undefVals
      [Op.validateField "phone" (.str ""),
        Op.resetForm { keepErrors := true, keepIsValid := true }]
      (by
        intro o ho
        simp at ho
        rcases ho with h | h <;> (rw [h]; simp [resetKeepsConsistent]))
      (by
        intro f hf
        simp at hf)⟩

/-- Claim C6, counterexample: validate the empty phone (producing an
error), then `resetForm` keeping errors but not `isValid` — the
reachable state has `isValid = true` with a non-empty error map, so the
invariant as claimed ("after any sequence ... with any option flags")
fails. -/
theorem isValid_iff_errors_empty_counterexample :
    (runOps cfgPhone {} undefVals
      [Op.validateField "phone" (.str ""), Op.resetForm { keepErrors := true }]
      (initState undefVals)).isValid = true ∧
    (runOps cfgPhone {} undefVals
      [Op.validateField "phone" (.str ""), Op.resetForm { keepErrors := true }]
      (initState undefVals)).errors = [("phone", "This field is required")] :=
  ⟨rfl, rfl⟩

/-! ## Claim C7: isDirty tracks non-emptiness of dirtyFields -/

/-- A `validateField` call transports the dirty invariant (it touches
neither `isDirty` nor `dirtyFields`). -/
theorem validateFieldApply_dirtyConsistent (cfg : Config)
    (opts : UseFormBuilderOptions) (rv : Values) (n : String) (v : JValue)
    (s : FState) (h : dirtyConsistent s) :
    dirtyConsistent ((validateFieldApply cfg opts rv n v s).1) := by
  unfold dirtyConsistent
  rw [(validateFieldApply_preserves cfg opts rv n v s).2.1,
    (validateFieldApply_preserves cfg opts rv n v s).2.2.1]
  exact h

/-- A fold of `validateField` calls transports the dirty invariant. -/
theorem foldl_validateFieldApply_dirtyConsistent (cfg : Config)
    (opts : UseFormBuilderOptions) (rv : Values) (deps : List String) (st : FState)
    (h : dirtyConsistent st) :
    dirtyConsistent (deps.foldl
      (fun st dep => (validateFieldApply cfg opts rv dep (rv dep) st).1) st) := by
  induction deps generalizing st with
  | nil => exact h
  | cons d ds ih =>
    rw [List.foldl_cons]
    exact ih _ (validateFieldApply_dirtyConsistent cfg opts rv d (rv d) st h)

/-- The non-validating part of `setValue` preserves the dirty
invariant: with `shouldDirty` not disabled it sets both sides, otherwise
it touches neither. -/
theorem setValuePlain_dirtyConsistent (cfg : Config)
    (opts : UseFormBuilderOptions) (name : String) (v : JValue)
    (callOpts : SetValueOptions) (s : FState) (h : dirtyConsistent s) :
    dirtyConsistent (setValuePlain cfg opts name v callOpts s) := by
  unfold setValuePlain dirtyConsistent
  by_cases hd : callOpts.shouldDirty ≠ Option.some false
  · show (if callOpts.shouldDirty ≠ Option.some false then true else s.isDirty) =
        true ↔
      (if callOpts.shouldDirty ≠ Option.some false then setFlag s.dirtyFields name
        else s.dirtyFields) ≠ []
    rw [if_pos hd, if_pos hd]
    exact ⟨fun _ => setFlag_ne_nil s.dirtyFields name, fun _ => rfl⟩
  · show (if callOpts.shouldDirty ≠ Option.some false then true else s.isDirty) =
        true ↔
      (if callOpts.shouldDirty ≠ Option.some false then setFlag s.dirtyFields name
        else s.dirtyFields) ≠ []
    rw [if_neg hd, if_neg hd]
    exact h

/-- `setValue` preserves the dirty invariant. -/
theorem setValueApply_dirtyConsistent (cfg : Config)
    (opts : UseFormBuilderOptions) (name : String) (v : JValue)
    (callOpts : SetValueOptions) (s : FState) (h : dirtyConsistent s) :
    dirtyConsistent (setValueApply cfg opts name v callOpts s) := by
  unfold setValueApply
  split
  · split
    · exact foldl_validateFieldApply_dirtyConsistent _ _ _ _ _
        (validateFieldApply_dirtyConsistent _ _ _ _ _ _
          (setValuePlain_dirtyConsistent cfg opts name v callOpts s h))
    · exact validateFieldApply_dirtyConsistent _ _ _ _ _ _
        (setValuePlain_dirtyConsistent cfg opts name v callOpts s h)
  · exact setValuePlain_dirtyConsistent cfg opts name v callOpts s h

/-- Every array operation tail establishes the dirty invariant: it sets
`isDirty` and inserts the field into `dirtyFields`. -/
theorem arrayMutApply_dirtyConsistent (cfg : Config)
    (opts : UseFormBuilderOptions) (fid : String) (newList : List JValue)
    (s : FState) : dirtyConsistent (arrayMutApply cfg opts fid newList s) := by
  unfold arrayMutApply
  apply validateFieldApply_dirtyConsistent
  exact ⟨fun _ => setFlag_ne_nil s.dirtyFields fid, fun _ => rfl⟩

/-- `handleSubmit` touches neither `isDirty` nor `dirtyFields`. -/
theorem handleSubmitApply_preservesDirty (cfg : Config)
    (opts : UseFormBuilderOptions) (s : FState) :
    (handleSubmitApply cfg opts s).isDirty = s.isDirty ∧
    (handleSubmitApply cfg opts s).dirtyFields = s.dirtyFields := by
  unfold handleSubmitApply
  split
  · exact ⟨rfl, rfl⟩
  · split
    · exact ⟨rfl, rfl⟩
    · split
      · exact ⟨rfl, rfl⟩
      · exact ⟨rfl, rfl⟩


/-- One allowed operation preserves the dirty invariant. -/
theorem applyOp_dirtyConsistent (cfg : Config) (opts : UseFormBuilderOptions)
    (defaults : Values) (o : Op) (s : FState)
    (hop : opNotResetField o)
    (h : dirtyConsistent s) :
    dirtyConsistent (applyOp cfg opts defaults o s) := by
  cases o with
  | setValue n v co => exact setValueApply_dirtyConsistent cfg opts n v co s h
  | validateField n v =>
    exact validateFieldApply_dirtyConsistent cfg opts s.values n v s h
  | arrayAppend fid v =>
    rw [applyOp]
    split
    · split
      · exact arrayMutApply_dirtyConsistent cfg opts fid _ s
      · exact h
    · exact h
  | arrayPrepend fid v =>
    rw [applyOp]
    split
    · split
      · exact arrayMutApply_dirtyConsistent cfg opts fid _ s
      · exact h
    · exact h
  | arrayRemove fid i =>
    rw [applyOp]
    split
    · split
      · exact arrayMutApply_dirtyConsistent cfg opts fid _ s
      · exact h
    · exact h
  | arraySwap fid a b =>
    rw [applyOp]
    split
    · split
      · exact arrayMutApply_dirtyConsistent cfg opts fid _ s
      · exact h
    · exact h
  | arrayMove fid a b =>
    rw [applyOp]
    split
    · split
      · exact arrayMutApply_dirtyConsistent cfg opts fid _ s
      · exact h
    · exact h
  | arrayInsert fid i v =>
    rw [applyOp]
    split
    · split
      · exact arrayMutApply_dirtyConsistent cfg opts fid _ s
      · exact h
    · exact h
  | handleSubmit =>
    show (handleSubmitApply cfg opts s).isDirty = true ↔
      (handleSubmitApply cfg opts s).dirtyFields ≠ []
    rw [(handleSubmitApply_preservesDirty cfg opts s).1,
      (handleSubmitApply_preservesDirty cfg opts s).2]
    exact h
  | submitSettle b =>
    rw [applyOp]
    unfold submitSettleApply
    split
    · exact h
    · exact h
  | resetForm o =>
    rw [applyOp]
    unfold resetFormApply dirtyConsistent
    rcases hkd : o.keepDirty with _ | _
    · simp
    · simp only [hkd, if_true]
      exact h
  | resetField n o => exact absurd hop (by simp [opNotResetField])
  | setLoading b => exact h
  | setFieldLoading fid b => exact h

/-- Claim C7, amended: in every state reachable from the initial state
through the exposed mutation operations other than `resetField`,
`isDirty` is true iff `dirtyFields` is non-empty. -/
theorem isDirty_iff_dirtyFields_nonempty (cfg : Config)
    (opts : UseFormBuilderOptions) (defaults v0 : Values) (ops : List Op)
    (hops : ∀ o ∈ ops, opNotResetField o) :
    (runOps cfg opts defaults ops (initState v0)).isDirty = true ↔
      (runOps cfg opts defaults ops (initState v0)).dirtyFields ≠ [] := by
  have hgen : ∀ (l : List Op) (s : FState), (∀ o ∈ l, opNotResetField o) →
      dirtyConsistent s →
      dirtyConsistent (l.foldl (fun st o => applyOp cfg opts defaults o st) s) := by
    intro l
    induction l with
    | nil => intro s _ hs; exact hs
    | cons o l' ih =>
      intro s hl hs
      rw [List.foldl_cons]
      exact ih _ (fun o ho => hl o (by simp [ho]))
        (applyOp_dirtyConsistent cfg opts defaults o s (hl o (by simp)) hs)
  exact hgen ops (initState v0) hops (by
    unfold dirtyConsistent initState
    simp)

/-- Witness for the amended C7 invariant: a single `setValue` run on the
phone form. -/
theorem isDirty_iff_dirtyFields_nonempty_witness :
    (∀ o ∈ [Op.setValue "phone" (.str "1") {}], opNotResetField o) ∧
    ((runOps cfgPhone {} undefVals [Op.setValue "phone" (.str "1") {}]
      (initState undefVals)).isDirty = true ↔
      (runOps cfgPhone {} undefVals [Op.setValue "phone" (.str "1") {}]
        (initState undefVals)).dirtyFields ≠ []) :=
  ⟨by
      intro o ho
      simp at ho
      rw [ho]
      simp [opNotResetField],
    isDirty_iff_dirtyFields_nonempty cfgPhone {} undefVals undefVals
      [Op.setValue "phone" (.str "1") {}]
      (by
        intro o ho
        simp at ho
        rw [ho]
        simp [opNotResetField])⟩

/-- Claim C7, counterexample: set a value (marking the field dirty),
then `resetField` it — `dirtyFields` is empty again but `isDirty`
remains `true`, because `resetField` never recomputes
`isDirty`.  The claim, which includes `resetField` among the covered
operations, therefore fails. -/
theorem isDirty_iff_dirtyFields_nonempty_counterexample :
    (runOps cfgPhone {} undefVals
      [Op.setValue "phone" (.str "1") {}, Op.resetField "phone" {}]
      (initState undefVals)).isDirty = true ∧
    (runOps cfgPhone {} undefVals
      [Op.setValue "phone" (.str "1") {}, Op.resetField "phone" {}]
      (initState undefVals)).dirtyFields = [] :=
  ⟨rfl, rfl⟩

end FormBuilder
